import Mathlib

/-!
Verification of the status-polling subsystem of kui-shell/AnimalApp.

The embedding follows `src/plugins/plugin-kubeui/src/controller/kubectl/status.ts`
(the status command orchestrator, `headerRow`, `errorEntity`) directly.  The
parts of the subsystem that this repository keeps in files not present under
`src/` (the `FinalState` enum from `lib/model/states`, the retry helpers from
`lib/util/retry`, the poll-ladder scheduler, the readiness classifier, the
per-resource poller and the multi-resource watcher) are modelled from the
specification, as marked in the doc comment of each such definition.

JavaScript conventions used in the embedding: a value that may be `undefined`
or `null` becomes `Option`; a thrown exception becomes `Except`; an option
string that JavaScript would treat as falsy when empty is modelled as `none`.
-/

namespace AnimalApp

/-- Modelled from the spec: section 3 FinalState, an "enumerated target:
OfflineLike (resource expected to disappear, e.g. after delete) or
NotPendingLike (resource expected to reach a non-transitional ready state)".
The enum's source file `lib/model/states` is not under `src/`, so the two
members are modelled abstractly, without the numeric values a TypeScript
enum would carry. -/
inductive FinalState where
  | NotPendingLike
  | OfflineLike

/-- True exactly on the `OfflineLike` member; used where `status.ts` compares
the final state against `FinalState.OfflineLike`. -/
def FinalState.isOffline : FinalState → Bool
  | .OfflineLike => true
  | .NotPendingLike => false

/-- Numeric rendering of a FinalState member, used when `status.ts` line 290
interpolates the enum value into the recursive `k status ... --final-state`
command for a directory of yamls.  The numbering is modelled from the spec's
member order, since the enum source is not under `src/`. -/
def fsArg : FinalState → String
  | .NotPendingLike => "0"
  | .OfflineLike => "2"

/-- JavaScript truthiness of a FinalState value.  The TypeScript enum numbers
its members in declaration order, so `NotPendingLike = 0` is falsy and
`OfflineLike = 2` is truthy — the numbering `fsArg` renders and `status.ts`
line 290 interpolates.  The `!finalState` test of line 246 is therefore true
exactly on `NotPendingLike`. -/
def finalStateTruthy : FinalState → Bool
  | .NotPendingLike => false
  | .OfflineLike => true

/-- Defaulting of the `--final-state` option, `status.ts` line 201:
`parsedOptions['final-state'] || FinalState.NotPendingLike`.  The JavaScript
`||` agrees with `getD` on both modelled members: a supplied `NotPendingLike`
is falsy (value 0) but the fallback is `NotPendingLike` itself, and a
supplied `OfflineLike` (value 2) is truthy and kept. -/
def defaultedFinalState (o : Option FinalState) : FinalState :=
  o.getD .NotPendingLike

/-- The comparison `args.parsedOptions['final-state'] === FinalState.OfflineLike`
of `status.ts` line 367, on the raw (undefaulted) option. -/
def isOfflineOption : Option FinalState → Bool
  | some .OfflineLike => true
  | _ => false

/-! ## Poll ladder

Modelled from the spec, section 4.1: the ladder scheduler's source file is not
under `src/`.  "Start with `initial`.  While the running value is below 1000ms,
increase by steps of 250ms (capped at 1000ms), appending each new value.  Once
at or above 1000ms, alternate appending the current value then increasing it by
2000ms (capped at `ceilingMs`), until the running value reaches `ceilingMs`."
The two loops are written with explicit fuel so that every run is computable by
kernel reduction; the fuel arguments are sufficient for every input (phase one
needs at most four 250ms steps to reach 1000, phase two at most one step per
2000ms of remaining gap plus one final capped step). -/

/-- Phase one of the ladder: while the running value is below 1000, step by
250 capped at 1000, collecting each new value; returns the appended values and
the final running value. -/
def phase1Go : Nat → Nat → List Nat × Nat
  | 0, v => ([], v)
  | fuel + 1, v =>
    if v < 1000 then
      let v2 := min (v + 250) 1000
      let p := phase1Go fuel v2
      (v2 :: p.1, p.2)
    else ([], v)

/-- Phase two of the ladder: while the running value is below the ceiling,
append the current value, then step by 2000 capped at the ceiling and append
the new value. -/
def phase2Go : Nat → Nat → Nat → List Nat
  | 0, _, _ => []
  | fuel + 1, ceiling, v =>
    if v < ceiling then
      let v2 := min (v + 2000) ceiling
      v :: v2 :: phase2Go fuel ceiling v2
    else []

/-- Modelled from the spec, section 4.1: `computeLadder(initialIntervalMs,
ceilingMs)`, the ordered sequence of wait durations. -/
def computeLadder (initial ceiling : Nat) : List Nat :=
  let p1 := phase1Go 4 initial
  initial :: p1.1 ++ phase2Go ((ceiling - p1.2) / 2000 + 1) ceiling p1.2

/-- Last element of a list of naturals, with a default for the empty list. -/
def lastD : List Nat → Nat → Nat
  | [], d => d
  | a :: l, _ => lastD l a

/-! ## Readiness classifier

Modelled from the spec, section 4.2: the classifier's source file is not under
`src/`.  Three tiers, checked in order: a STATUS attribute decides through the
textual-state classifier; else a READY attribute of the form `nReady/nTotal`
decides by equality of its two components; else the row is ready by default. -/

/-- A status snapshot row as the classifier sees it: the optional STATUS and
READY attributes of the tabular row. -/
structure StatusRow where
  stateText : Option String
  readyText : Option String

/-- Modelled from the spec, section 4.2 tier 1: the textual-state classifier
"maps known status strings to done relative to finalState (for OfflineLike,
done is unreachable by definition; for NotPendingLike, a known-ready string
signals done)".  The known-ready strings are modelled from the spec's
fixture, which requires at least "Running". -/
def stateIsDone (s : String) : FinalState → Bool
  | .OfflineLike => false
  | .NotPendingLike => ["Running", "Ready", "Active", "Succeeded"].contains s

/-- Split a character list at every slash. -/
def splitSlash : List Char → List Char → List (List Char)
  | [], acc => [acc.reverse]
  | c :: t, acc => if c = '/' then acc.reverse :: splitSlash t [] else splitSlash t (c :: acc)

/-- Modelled from the spec, section 4.2 tier 2: a READY attribute of the form
`nReady/nTotal` is done iff both components are present and equal. -/
def readyRatioIsDone (r : String) : Bool :=
  match splitSlash r.data [] with
  | [a, b] => !a.isEmpty && !b.isEmpty && a == b
  | _ => false

/-- Modelled from the spec, section 4.2: `isReady(statusRow, finalState)`,
the three-tier readiness policy. -/
def isReady (row : StatusRow) (fs : FinalState) : Bool :=
  match row.stateText with
  | some s => stateIsDone s fs
  | none =>
    match row.readyText with
    | some r => readyRatioIsDone r
    | none => true

/-! ## Resource poller tick

Modelled from the spec, sections 4.3 and 7: the poller's source file is not
under `src/`.  A tick re-queries the external system for one resource; the
model keeps the query outcome abstract and describes the tick's classification
and the push notifications it emits. -/

/-- Outcome of one external query made by a poller tick: a tabular result with
its matching rows, or a thrown `CodedError{code}` (`code = 404` is the
distinguished not-found signal, spec section 6). -/
inductive QueryOutcome where
  | gotRows (rs : List StatusRow)
  | failure (code : Nat)

/-- The classification of one poller tick, spec section 4.3. -/
inductive TickResult where
  | updatedAndScheduled
  | completed
  | completedAsOffline
  | rescheduledSilently

/-- A push notification into the live view (spec section 6): `update(row)`,
`offline(name)` or `done()`. -/
inductive PushEvent where
  | update (row : StatusRow)
  | offline (rname : String)
  | allDone

/-- Modelled from the spec, section 4.3: one poller tick.  Exactly one row:
classify readiness, push the updated row, complete if ready.  Zero or several
rows: log and reschedule without an update.  Query failure: a 404 while the
target final state is OfflineLike is success (push `offline`, complete); any
other failure is swallowed for this tick and polling continues. -/
def pollTick (fs : FinalState) (readyRow : StatusRow → Bool) (rname : String) :
    QueryOutcome → TickResult × List PushEvent
  | .gotRows [r] =>
    if readyRow r then (.completed, [.update r]) else (.updatedAndScheduled, [.update r])
  | .gotRows _ => (.rescheduledSilently, [])
  | .failure code =>
    if code == 404 && fs.isOffline then (.completedAsOffline, [.offline rname])
    else (.rescheduledSilently, [])

/-! ## Multi-resource watcher countdown

Modelled from the spec, sections 3, 4.4: the watcher's source file is not
under `src/`.  Each poller is wired to a shared `done` callback that
decrements a countdown; when the countdown reaches zero the watcher signals
overall completion to the pusher. -/

/-- The watcher's aggregate state: the countdown of not-yet-ready resources
and the number of overall "all done" signals sent so far. -/
structure WatcherState where
  countdown : Nat
  doneSignals : Nat

/-- Modelled from the spec, section 4.4: the shared `done` callback.  It
decrements the countdown; when the countdown reaches zero it signals overall
completion to the pusher. -/
def onChildDone (s : WatcherState) : WatcherState :=
  let c := s.countdown - 1
  { countdown := c, doneSignals := if c = 0 then s.doneSignals + 1 else s.doneSignals }

/-- Iterate the shared `done` callback a given number of times. -/
def onChildDoneIter : Nat → WatcherState → WatcherState
  | 0, s => s
  | k + 1, s => onChildDoneIter k (onChildDone s)

/-- Run a watch session over `n` resources: start from a countdown of `n` and
process a sequence of per-resource completion events (each event carries the
index of the resource that completed; the shared callback ignores it, as in
the source design where every poller closes over the same counter). -/
def runWatcher (n : Nat) (events : List Nat) : WatcherState :=
  events.foldl (fun s _ => onChildDone s) { countdown := n, doneSignals := 0 }

/-! ## The data model of `status.ts`

`src/plugins/plugin-kubeui/src/controller/kubectl/status.ts` works over
`KubeResource` values, `Tables.Row` values and `CodedError` exceptions. -/

/-- A JavaScript exception as `status.ts` can raise or observe it: either a
`TypeError` from reading a property of `undefined`, or a `CodedError` with a
numeric `code` and a message. -/
inductive JsError where
  | typeErr
  | coded (code : Nat) (message : String)

/-- The two members of the `States` enum that `errorEntity` uses
(`States.Offline`, `States.Failed`); the enum's source file `lib/model/states`
is not under `src/`, so only these two members are modelled. -/
inductive States where
  | Offline
  | Failed

/-- The `status` field `errorEntity` attaches to an entity. -/
structure KubeStatusField where
  state : States
  message : String

/-- `metadata` of a `KubeResource`.  The source field `namespace` is a Lean
keyword, so it is embedded as `nspace`. -/
structure KubeMetadata where
  mname : Option String
  nspace : Option String

/-- A `KubeResource` as `status.ts` reads and builds it: every field the file
touches, each optional because JavaScript leaves absent fields `undefined`. -/
structure KubeResource where
  apiVersion : Option String
  kind : Option String
  originatingCommand : Option String
  metadata : Option KubeMetadata
  status : Option KubeStatusField

/-- One attribute cell of a `Tables.Row`. -/
structure Attr where
  value : String
  outerCSS : String

/-- A `Tables.Row` as `headerRow` builds it. -/
structure Row where
  rtype : Option String
  rname : String
  outerCSS : Option String
  attributes : List Attr

/-! ## String helpers

Kernel-computable counterparts of the JavaScript string operations that
`status.ts` uses (`charAt`, `match`, `slice`, `replace`, template literals). -/

/-- JavaScript `s.startsWith(pat)` / a `^pat` regex match. -/
def strStarts (s pat : String) : Bool :=
  pat.data.isPrefixOf s.data

/-- JavaScript `/pat$/.test(s)`. -/
def strEnds (s pat : String) : Bool :=
  pat.data.isSuffixOf s.data

/-- Whether `pat` occurs as a contiguous substring of `s`. -/
def containsChars (pat : List Char) : List Char → Bool
  | [] => pat.isEmpty
  | c :: t => pat.isPrefixOf (c :: t) || containsChars pat t

/-- The test `kind && kind.match(/(ns|Namespace)/i)` of `headerRow`
(`status.ts` line 98): a case-insensitive search for `ns` or `namespace`
anywhere in the kind string; an absent kind is falsy. -/
def kindMatchesNs : Option String → Bool
  | none => false
  | some k =>
    let lower := k.data.map Char.toLower
    containsChars ("ns".data) lower || containsChars ("namespace".data) lower

/-- JavaScript `s.replace(pat, repl)` with a string pattern: replaces the
first occurrence only. -/
def replaceFirst (s pat repl : String) : String :=
  match s.splitOn pat with
  | [] => s
  | [x] => x
  | x :: rest => x ++ repl ++ String.intercalate pat rest

/-- The `filepath.match(/\x2f(!.*$)/)` probe of `status.ts` line 324 followed
by `passedAsParameter[1].slice(1)`: the text after the first `/!` of the
path, or `none` when the path has no `/!`. -/
def bangSuffix (filepath : String) : Option String :=
  match filepath.splitOn ("/!") with
  | [] => none
  | [_] => none
  | _ :: rest => some (String.intercalate ("/!") rest)

/-- JavaScript template interpolation of a possibly-`undefined` string. -/
def optStr (o : Option String) : String :=
  o.getD ("undefined")

/-! ## The orchestrator (`status.ts`) -/

/-- The `ns` helper of `getDirectReferences` (`status.ts` lines 205-212): the
`--namespace` fragment of a `kubectl get` for one entity.  The entity's own
`metadata.namespace` wins (quoted); else, when a `--namespace`/`-n` option was
given on the command line, that namespace (the `namespace` variable of line
200, which equals the option when the option is present); else the empty
string — no namespace option at all. -/
def nsFlag (metadataNamespace cliNs : Option String) : String :=
  match metadataNamespace with
  | some x => "-n \"" ++ x ++ "\""
  | none =>
    match cliNs with
    | some _ => "-n " ++ (cliNs.getD ("default"))
    | none => ""

/-- The `kubectl get "${_.kind}" "${_.metadata.name}" ${ns(_)} -o json`
template of `status.ts` lines 224 and 335.  Reading `_.metadata.name` throws
a `TypeError` when `metadata` is `undefined`; an `undefined` kind or name is
interpolated as the text `undefined`. -/
def buildGetCmd (r : KubeResource) (cliNs : Option String) : Except JsError String :=
  match r.metadata with
  | none => .error .typeErr
  | some m =>
    .ok ("kubectl get \"" ++ optStr r.kind ++ "\" \"" ++ optStr m.mname ++ "\" "
      ++ nsFlag m.nspace cliNs ++ " -o json")

/-- `headerRow` (`status.ts` lines 93-126): the header row of the status
table.  The NAMESPACE column is omitted exactly when the kind matches
`/(ns|Namespace)/i`. -/
def headerRow (kind : Option String) : Row :=
  let kindAttr := [Attr.mk ("KIND") "header-cell not-too-wide entity-kind"]
  let namespaceAttr :=
    if kindMatchesNs kind then []
    else [Attr.mk ("NAMESPACE") "header-cell pretty-narrow hide-with-sidecar"]
  let statusAttr :=
    [Attr.mk ("STATUS") "header-cell badge-width",
     Attr.mk ("MESSAGE") "header-cell not-too-wide hide-with-sidecar min-width-date-like"]
  { rtype := some ("status"), rname := "NAME", outerCSS := some ("header-cell"),
    attributes := kindAttr ++ namespaceAttr ++ statusAttr }

/-- `errorEntity` (`status.ts` lines 132-169).  With an `undefined` base the
reconstruction reads `base.originatingCommand` from `undefined` and throws a
`TypeError` before anything else; otherwise a missing `metadata` (or a missing
`metadata.namespace`) is backfilled from `backupNamespace`, a 404 yields an
Offline entity, and any other error yields a Failed entity — unless
`execOptions.raw` is set, in which case the error is rethrown. -/
def errorEntity (raw : Bool) (base : Option KubeResource) (backupNamespace : Option String)
    (err : JsError) : Except JsError KubeResource :=
  match base with
  | none => .error .typeErr
  | some b =>
    let b2 : KubeResource :=
      match b.metadata with
      | none => { b with metadata := some { mname := none, nspace := backupNamespace } }
      | some m =>
        match m.nspace with
        | none => { b with metadata := some { m with nspace := backupNamespace } }
        | some _ => b
    match err with
    | .coded 404 _ =>
      .ok { b2 with status := some { state := .Offline, message := "resource has been deleted" } }
    | _ =>
      if raw then .error err
      else .ok { b2 with status := some { state := .Failed, message := "error fetching resource" } }

/-- Modelled from the spec: the `withOkOn404` helper imported from
`lib/util/retry`, whose source file is not under `src/`.  Per spec section 7,
a not-found while awaiting offline is an "expected-success signal, not an
error — short-circuits to completion": a 404 resolves successfully with no
entity; any other outcome passes through. -/
def withOkOn404 (result : Except JsError KubeResource) : Except JsError (Option KubeResource) :=
  match result with
  | .ok r => .ok (some r)
  | .error (.coded 404 _) => .ok none
  | .error e => .error e

/-- How the `resource` promise of `getDirectReferences` settles when later
awaited by `status`: with no value (`Promise.resolve()`), one entity, an
array of entities, or a rejection. -/
inductive Resolution where
  | missing
  | entity (r : KubeResource)
  | entities (rs : List KubeResource)
  | rejectedLater (e : JsError)

/-- How the (awaited) call of `getDirectReferences` itself ends: a returned
`{kind, resource}` pair, a thrown error, or — for the retry-on-404 path when
every attempt keeps yielding 404 — never. -/
inductive GDRResult where
  | returned (kind : Option String) (res : Resolution)
  | threw (e : JsError)
  | neverReturns

/-- `Promise.all` over already-determined member outcomes.  The model is the
sequential schedule: the first member in list order that rejects determines
the rejection. -/
def promiseAll {α : Type} : List (Except JsError α) → Except JsError (List α)
  | [] => .ok []
  | .error e :: _ => .error e
  | .ok r :: rest =>
    match promiseAll rest with
    | .error e => .error e
    | .ok rs => .ok (r :: rs)

/-- The external collaborators of `status.ts`, as oracles: the REPL query
functions, the file/parameter loader, the filesystem probes and the row
formatter (spec section 6 interfaces).  Each oracle is deterministic per
argument. -/
structure Env where
  query : String → Except JsError KubeResource
  queryList : String → Except JsError (List KubeResource)
  parameters : String → List (Option KubeResource)
  findFile : String → String
  isDirectory : String → Option Bool
  readdir : String → List String
  dirStatus : String → Except JsError KubeResource
  fetchfile : String → Except JsError (List String)
  parseYAML : String → List (Option KubeResource)
  encodeComponent : String → String
  formatEntity : Option KubeResource → Except JsError Row
  headless : Bool

/-- The inputs of one `status` invocation: positional arguments, parsed
options and exec options.  Option strings that JavaScript would treat as
falsy when empty (`name`, `namespace`, `response`) are modelled as `none`. -/
structure Invocation where
  command : String
  file : Option String
  nameArg : Option String
  nsOption : Option String
  finalStateOption : Option FinalState
  response : Option String
  watching : Bool
  rawOption : Bool
  watchOption : Bool

/-- One element of the `Promise.all` of the `!`-parameter path (`status.ts`
lines 221-230): a null parse paragraph throws a `TypeError` when the template
literal reads its `kind`; otherwise the built `kubectl get` is queried raw.
No catch is attached here. -/
def bangElement (env : Env) (cliNs : Option String) :
    Option KubeResource → Except JsError KubeResource
  | none => .error .typeErr
  | some r =>
    match buildGetCmd r cliNs with
    | .error e => .error e
    | .ok cmd => env.query cmd

/-- One element of the `Promise.all` of the yaml-file path (`status.ts` lines
332-341): the built `kubectl get` is queried raw with
`.catch(errorEntity(execOptions, spec, namespace))`.  A `TypeError` thrown
while building the command happens before the catch is attached and rejects
the element directly. -/
def yamlElement (env : Env) (rawOpt : Bool) (cliNs : Option String) (namespaceDefault : String)
    (spec : KubeResource) : Except JsError KubeResource :=
  match buildGetCmd spec cliNs with
  | .error e => .error e
  | .ok cmd =>
    match env.query cmd with
    | .ok r => .ok r
    | .error err => errorEntity rawOpt (some spec) (some namespaceDefault) err

/-- The yaml-file filter `^[^\x5c.#].*\.yaml$` of `status.ts` line 270: ends
in `.yaml`, has at least one leading character, and does not start with a
backslash, dot or hash. -/
def goodYamlName (f : String) : Bool :=
  !(strStarts f (".") || strStarts f ("#") || strStarts f ("\\"))
    && strEnds f (".yaml") && decide (6 ≤ f.length)

/-- The directory branch of `getDirectReferences` (`status.ts` lines 262-297):
list the yamls of the directory, add the yamls of a `seeds` subdirectory when
one exists, put `main.yaml` first, and recursively invoke `k status` on each
file (modelled by the `dirStatus` oracle), with `Promise.all` semantics. -/
def dirResolution (env : Env) (filepath : String) (finalState : FinalState) : Resolution :=
  let files := env.readdir filepath
  let yamls0 := (files.filter goodYamlName).map (fun f => filepath ++ "/" ++ f)
  let yamls :=
    if files.contains ("seeds") then
      match env.isDirectory (filepath ++ "/seeds") with
      | some true =>
        yamls0 ++ ((env.readdir (filepath ++ "/seeds")).filter (fun f => strEnds f (".yaml"))).map
          (fun f => filepath ++ "/seeds/" ++ f)
      | _ => yamls0
    else yamls0
  let mainY := yamls.find? (fun f => strEnds f ("main.yaml"))
  let ordered :=
    (match mainY with | some m => [m] | none => []) ++
      yamls.filter (fun f => !strEnds f ("main.yaml"))
  match promiseAll (ordered.map (fun fp =>
      env.dirStatus ("k status \"" ++ fp ++ "\" --final-state " ++ fsArg finalState))) with
  | .error e => .rejectedLater e
  | .ok rs => .entities rs

/-- `getDirectReferences` (`status.ts` lines 186-346), over the fields it
reads.  `file` is `argvNoOptions[idx]`, `nameArg` is `argvNoOptions[idx+1]`,
`cliNs` is `parsedOptions.namespace || parsedOptions.n`, `finalState` is the
already-defaulted final state of line 201 and `rawOpt` is
`execOptions.raw`.  The by-name dispatch of line 246,
`!finalState || finalState === FinalState.OfflineLike`, is embedded with the
enum's JavaScript truthiness (`finalStateTruthy`): since `NotPendingLike` is
the falsy value 0, both modelled members satisfy the condition and take
`withOkOn404`; the `withRetryOn404` branch (modelled from the spec's
"treated as transient, polling continues": against a per-command
deterministic query oracle a persistent 404 never returns) is unreachable
for the two modelled members and kept for structure only. -/
def gdrCore (env : Env) (file nameArg cliNs : Option String) (finalState : FinalState)
    (rawOpt : Bool) : GDRResult :=
  let namespaceDefault := cliNs.getD ("default")
  match file with
  | none => .threw .typeErr
  | some file =>
    if strStarts file ("!") then
      let resources := env.parameters (file.drop 1)
      .returned (some ("file"))
        (match promiseAll (resources.map (bangElement env cliNs)) with
          | .error e => .rejectedLater e
          | .ok rs => .entities rs)
    else
      match nameArg with
      | some nm =>
        let cmd := "kubectl get \"" ++ file ++ "\" \"" ++ nm ++ "\" "
          ++ nsFlag none cliNs ++ " -o json"
        if !(finalStateTruthy finalState) || finalState.isOffline then
          match withOkOn404 (env.query cmd) with
          | .error e => .threw e
          | .ok none => .returned (some file) .missing
          | .ok (some r) => .returned (some file) (.entity r)
        else
          match env.query cmd with
          | .ok r => .returned (some file) (.entity r)
          | .error (.coded 404 _) => .neverReturns
          | .error e => .threw e
      | none =>
        let filepath := env.findFile file
        let isURL := strStarts file ("http://") || strStarts file ("https://")
        let isDir : Option Bool := if isURL then some false else env.isDirectory filepath
        match isDir with
        | some true => .returned (some ("dir")) (dirResolution env filepath finalState)
        | none =>
          let cmd := "kubectl get \"" ++ file ++ "\" \"\" " ++ nsFlag none cliNs ++ " -o json"
          .returned (some file)
            (match env.queryList cmd with
              | .ok items => .entities items
              | .error err =>
                match err with
                | .coded 404 _ => .rejectedLater err
                | _ =>
                  match errorEntity rawOpt none (some namespaceDefault) err with
                  | .error e2 => .rejectedLater e2
                  | .ok r => .entity r)
        | some false =>
          let passedAsParameter := if isURL then none else bangSuffix filepath
          let specsRaw : Except JsError (List (Option KubeResource)) :=
            match passedAsParameter with
            | some key => .ok (env.parameters key)
            | none =>
              match env.fetchfile ("_fetchfile " ++ env.encodeComponent file) with
              | .error e => .error e
              | .ok contents => .ok (contents.map env.parseYAML).flatten
          match specsRaw with
          | .error e => .threw e
          | .ok specsOpt =>
            let specs := specsOpt.filterMap id
            .returned none
              (match promiseAll (specs.map (yamlElement env rawOpt cliNs namespaceDefault)) with
                | .error e => .rejectedLater e
                | .ok rs => .entities rs)

/-- `getDirectReferences` over a whole invocation, applying the option
defaulting of `status.ts` lines 200-201. -/
def getDirectReferences (inv : Invocation) (env : Env) : GDRResult :=
  gdrCore env inv.file inv.nameArg inv.nsOption (defaultedFinalState inv.finalStateOption)
    inv.rawOption

/-- What one `status` invocation produces: a raw entity (or `undefined`)
returned to a raw caller, the pass-through `response || true` (where `none`
is the bare `true`), a table with an optional watch refresh command, a thrown
error, or no outcome at all because an await never settles. -/
inductive StatusOutcome where
  | rawEntity (r : Option KubeResource)
  | passThrough (response : Option String)
  | table (header : Row) (body : List Row) (refresh : Option String)
  | thrown (e : JsError)
  | pending

/-- The tail of `status` (`status.ts` lines 382-397): build the table from
`headerRow(kind)` and the formatted body; when watching is requested and the
session is not headless, attach the refresh command
`args.command.replace('--watch','').replace('-w','') + ' --watching'`. -/
def finishTable (env : Env) (command : String) (watchOpt : Bool) (kind : Option String)
    (body : List Row) : StatusOutcome :=
  let doWatch := !env.headless && watchOpt
  if doWatch then
    .table (headerRow kind) body
      (some (replaceFirst (replaceFirst command ("--watch") "") "-w" "" ++ " --watching"))
  else
    .table (headerRow kind) body none

/-- The body of the `status` handler (`status.ts` lines 352-398) after
`getDirectReferences` has been awaited, over the fields of the invocation the
handler reads: `rawOpt` is `args.execOptions.raw`, `watching` is
`args.parsedOptions.watching`, `offlineOpt` is the line-367 comparison of the
raw `--final-state` option with `FinalState.OfflineLike`. -/
def statusCore (env : Env) (gdr : GDRResult) (rawOpt watching offlineOpt watchOpt : Bool)
    (response : Option String) (command : String) : StatusOutcome :=
  match gdr with
  | .neverReturns => .pending
  | .threw e => .thrown e
  | .returned kind res =>
    match res with
    | .rejectedLater e => .thrown e
    | .missing =>
      if rawOpt then .rawEntity none
      else if offlineOpt then
        if watching then .thrown (.coded 404 (response.getD (""))) else .passThrough response
      else
        match env.formatEntity none with
        | .error e => .thrown e
        | .ok row => finishTable env command watchOpt kind [row]
    | .entity r =>
      if rawOpt then .rawEntity (some r)
      else
        match env.formatEntity (some r) with
        | .error e => .thrown e
        | .ok row => finishTable env command watchOpt kind [row]
    | .entities rs =>
      match promiseAll (rs.map (fun r => env.formatEntity (some r))) with
      | .error e => .thrown e
      | .ok rows => finishTable env command watchOpt kind rows

/-- The `status` command handler (`status.ts` lines 352-398). -/
def status (inv : Invocation) (env : Env) : StatusOutcome :=
  statusCore env (getDirectReferences inv env) inv.rawOption inv.watching
    (isOfflineOption inv.finalStateOption) inv.watchOption inv.response inv.command

/-! ## Observations and spec-side definitions used to settle the claims -/

/-- Whether a row carries a NAMESPACE attribute cell. -/
def rowHasNamespaceColumn (r : Row) : Bool :=
  r.attributes.any (fun a => a.value == "NAMESPACE")

/-- Whether a status outcome is a table whose header carries a NAMESPACE
column. -/
def outcomeHasNamespaceColumn : StatusOutcome → Bool
  | .table h _ _ => rowHasNamespaceColumn h
  | _ => false

/-- The spec claim's namespace-column rule, stated in the claim's own words:
the table "includes a NAMESPACE column if and only if at least one reference
in the batch has a non-default namespace".  Defined for comparison with what
`headerRow` actually does. -/
def namespaceColumnPerSpecClaim (batch : List KubeResource) : Bool :=
  batch.any (fun r =>
    (match r.metadata with
      | some m => m.nspace.getD ("default")
      | none => "default") != "default")

/-- The namespace the generated `kubectl get` reference actually carries,
read off the `ns` helper: the resource's declared namespace if present, else
the command-line namespace if present, else none (no `-n` flag at all). -/
def refNamespace (metadataNamespace cliNs : Option String) : Option String :=
  match metadataNamespace with
  | some x => some x
  | none =>
    match cliNs with
    | some x => some x
    | none => none

/-- The spec claim's namespace rule for a built reference, stated in the
claim's own words: the "namespace defaults to the command-line namespace when
one is given, and to default otherwise" (reading the resource's own declared
namespace as taking precedence when present).  Defined for comparison with
`refNamespace`. -/
def refNamespacePerSpecClaim (metadataNamespace cliNs : Option String) : String :=
  match metadataNamespace with
  | some x => x
  | none => cliNs.getD ("default")

/-! ## Concrete fixtures -/

/-- A neutral environment: every oracle fails with 404 or returns nothing. -/
def baseEnv : Env :=
  { query := fun _ => .error (.coded 404 ("not found")),
    queryList := fun _ => .error (.coded 404 ("not found")),
    parameters := fun _ => [],
    findFile := fun f => f,
    isDirectory := fun _ => none,
    readdir := fun _ => [],
    dirStatus := fun _ => .error (.coded 404 ("not found")),
    fetchfile := fun _ => .error (.coded 404 ("not found")),
    parseYAML := fun _ => [],
    encodeComponent := fun s => s,
    formatEntity := fun _ =>
      .ok { rtype := none, rname := "nginx", outerCSS := none, attributes := [] },
    headless := false }

/-- A neutral invocation with no arguments and no options. -/
def baseInv : Invocation :=
  { command := "k status", file := none, nameArg := none, nsOption := none,
    finalStateOption := none, response := none, watching := false, rawOption := false,
    watchOption := false }

/-- A pod resource living in the default namespace. -/
def podDefaultNs : KubeResource :=
  { apiVersion := some ("v1"), kind := some ("Pod"), originatingCommand := none,
    metadata := some { mname := some ("nginx"), nspace := some ("default") },
    status := none }

/-- `k status pod nginx --final-state OfflineLike`. -/
def invOfflineByName : Invocation :=
  { baseInv with
    command := "k status pod nginx --final-state 2", file := some ("pod"),
    nameArg := some ("nginx"), finalStateOption := some .OfflineLike }

/-- `k status pod nginx --final-state NotPendingLike`. -/
def invAwaitReadyByName : Invocation :=
  { baseInv with
    command := "k status pod nginx --final-state 0", file := some ("pod"),
    nameArg := some ("nginx"), finalStateOption := some .NotPendingLike }

/-- An environment whose single-resource query always reports the
distinguished not-found error. -/
def envNotFound : Env :=
  { baseEnv with
    query := fun _ => .error (.coded 404 ("the server could not find the requested resource")) }

/-- `k status bogus` with a previously supplied `--response`, where `bogus`
is neither an existing file nor a known resource kind: the repository's own
query then fails with 404 ("no such resource type"). -/
def invBogusKind : Invocation :=
  { baseInv with
    command := "k status bogus", file := some ("bogus"),
    response := some ("upstream response text") }

/-- Environment for `invBogusKind`: the file does not exist
(`isDirectory` yields `undefined`) and the kind query fails with 404. -/
def envBogusKind : Env :=
  { baseEnv with
    queryList := fun _ => .error (.coded 404 ("the server does not have a resource type bogus")) }

/-- `k status pod nginx --final-state OfflineLike --response ...`, outside the
watching loop and not raw. -/
def invOfflineFallback : Invocation :=
  { invOfflineByName with response := some ("deleted ok") }

/-- `k status pod nginx` (awaiting ready, option absent) against a cluster
where the pod exists in the default namespace. -/
def invPodByName : Invocation :=
  { baseInv with
    command := "k status pod nginx", file := some ("pod"),
    nameArg := some ("nginx") }

/-- Environment for `invPodByName`: the query finds the pod. -/
def envPodFound : Env :=
  { baseEnv with query := fun _ => .ok podDefaultNs }

/-- A pod resource that declares no namespace of its own. -/
def podNoNs : KubeResource :=
  { apiVersion := some ("v1"), kind := some ("Pod"), originatingCommand := none,
    metadata := some { mname := some ("nginx"), nspace := none },
    status := none }

/-! # Theorems -/

/-! ## Poll-ladder lemmas -/

/-- The last element of an appended list. -/
theorem lastD_append (l₁ : List Nat) : ∀ (l₂ : List Nat) (d : Nat),
    lastD (l₁ ++ l₂) d = lastD l₂ (lastD l₁ d) := by
  induction l₁ with
  | nil => intro l₂ d; rfl
  | cons a t ih => intro l₂ d; exact ih l₂ a

/-- A chain over an appended list, given chains over the pieces joined at the
last element of the first piece. -/
theorem chain_append_lastD {R : Nat → Nat → Prop} (l₁ : List Nat) : ∀ (l₂ : List Nat) (a : Nat),
    List.Chain R a l₁ → List.Chain R (lastD l₁ a) l₂ → List.Chain R a (l₁ ++ l₂) := by
  induction l₁ with
  | nil => intro l₂ a _ h₂; exact h₂
  | cons b t ih =>
    intro l₂ a h₁ h₂
    cases h₁ with
    | cons hab ht => exact .cons hab (ih l₂ b ht h₂)

/-- The second component of `phase1Go` is the final running value. -/
theorem phase1Go_lastD (fuel : Nat) : ∀ v, lastD (phase1Go fuel v).1 v = (phase1Go fuel v).2 := by
  induction fuel with
  | zero => intro v; rfl
  | succ n ih =>
    intro v
    by_cases h : v < 1000
    · simp only [phase1Go, if_pos h]
      exact ih _
    · simp only [phase1Go, if_neg h]
      rfl

/-- With sufficient fuel, phase one stops exactly at 1000 when it ran at all. -/
theorem phase1Go_snd (fuel : Nat) : ∀ v, 1000 ≤ v + 250 * fuel →
    (phase1Go fuel v).2 = if v < 1000 then 1000 else v := by
  induction fuel with
  | zero =>
    intro v h
    simp only [phase1Go]
    rw [if_neg (by omega)]
  | succ n ih =>
    intro v h
    by_cases hv : v < 1000
    · simp only [phase1Go, if_pos hv]
      rw [ih (min (v + 250) 1000) (by omega)]
      split <;> omega
    · simp [phase1Go, hv]

/-- Consecutive elements of phase one step by exactly 250, clamped at 1000. -/
theorem phase1Go_chain (fuel : Nat) : ∀ v,
    List.Chain (fun a b => a < 1000 ∧ b = min (a + 250) 1000) v (phase1Go fuel v).1 := by
  induction fuel with
  | zero => intro v; exact .nil
  | succ n ih =>
    intro v
    by_cases h : v < 1000
    · simp only [phase1Go, if_pos h]
      exact .cons ⟨h, rfl⟩ (ih _)
    · simp only [phase1Go, if_neg h]
      exact .nil

/-- Phase two produces nothing once the running value has reached the ceiling. -/
theorem phase2Go_stop (fuel ceiling v : Nat) (h : ¬ v < ceiling) : phase2Go fuel ceiling v = [] := by
  cases fuel <;> simp [phase2Go, h]

/-- With sufficient fuel, phase two ends exactly at the ceiling. -/
theorem phase2Go_lastD (fuel : Nat) : ∀ ceiling v a, v < ceiling → ceiling ≤ v + 2000 * fuel →
    lastD (phase2Go fuel ceiling v) a = ceiling := by
  induction fuel with
  | zero => intro c v a h1 h2; omega
  | succ n ih =>
    intro c v a h1 h2
    simp only [phase2Go, if_pos h1]
    show lastD (phase2Go n c (min (v + 2000) c)) (min (v + 2000) c) = c
    by_cases hv2 : min (v + 2000) c < c
    · exact ih c _ _ hv2 (by omega)
    · rw [phase2Go_stop n c _ hv2]
      show min (v + 2000) c = c
      omega

/-- Phase two is non-decreasing, and all its elements are at least 1000 when
entered at or above 1000, so the 250-step property is vacuous there. -/
theorem phase2Go_chain (fuel : Nat) : ∀ ceiling v a, a ≤ v → 1000 ≤ a →
    List.Chain (fun x y => x ≤ y ∧ (x < 1000 → y = min (x + 250) 1000)) a
      (phase2Go fuel ceiling v) := by
  induction fuel with
  | zero => intro c v a _ _; exact .nil
  | succ n ih =>
    intro c v a hav h1000
    by_cases h : v < c
    · simp only [phase2Go, if_pos h]
      exact .cons ⟨hav, fun hlt => by omega⟩
        (.cons ⟨by omega, fun hlt => by omega⟩ (ih c _ _ (le_refl _) (by omega)))
    · rw [phase2Go_stop _ _ _ h]
      exact .nil

/-- Unfolding of `computeLadder`. -/
theorem computeLadder_eq (initial ceiling : Nat) :
    computeLadder initial ceiling =
      initial :: (phase1Go 4 initial).1 ++
        phase2Go ((ceiling - (phase1Go 4 initial).2) / 2000 + 1) ceiling
          (phase1Go 4 initial).2 := rfl

/-- The whole ladder, from its head, is chained by the master step relation. -/
theorem computeLadder_chain (initial ceiling : Nat) :
    List.Chain (fun a b => a ≤ b ∧ (a < 1000 → b = min (a + 250) 1000)) initial
      ((phase1Go 4 initial).1 ++
        phase2Go ((ceiling - (phase1Go 4 initial).2) / 2000 + 1) ceiling
          (phase1Go 4 initial).2) := by
  have hsnd := phase1Go_snd 4 initial (by omega)
  refine chain_append_lastD _ _ _ ?_ ?_
  · exact (phase1Go_chain 4 initial).imp (fun a b hab => ⟨by omega, fun _ => hab.2⟩)
  · rw [phase1Go_lastD]
    refine phase2Go_chain _ _ _ _ (le_refl _) ?_
    rw [hsnd]
    split <;> omega

/-! ## Claims C5 and C6: the ladder -/

/-- C5, counterexample: the claim quantifies over all `initial < ceiling`, but
for a ceiling below 1000 the below-1000 phase of the spec's algorithm clamps
at 1000 and overshoots the ceiling, so the last element is 1000, not the
ceiling: `computeLadder 500 999 = [500, 750, 1000]`. -/
theorem c5_ladder_cex :
    500 < 999 ∧ computeLadder 500 999 = [500, 750, 1000] ∧
      lastD (computeLadder 500 999) 0 ≠ 999 := by
  refine ⟨by decide, by decide, by decide⟩

/-- C5 (amended: `1000 ≤ ceiling` added): for all `initial < ceiling` with
`1000 ≤ ceiling`, `computeLadder initial ceiling` is a non-decreasing finite
sequence, its last element equals the ceiling, and every element below 1000
is followed by exactly that element plus 250, clamped at 1000. -/
theorem c5_ladder_amended (initial ceiling : Nat) (h1 : initial < ceiling)
    (h2 : 1000 ≤ ceiling) :
    List.Chain' (fun a b => a ≤ b) (computeLadder initial ceiling) ∧
    lastD (computeLadder initial ceiling) 0 = ceiling ∧
    List.Chain' (fun a b => a < 1000 → b = min (a + 250) 1000) (computeLadder initial ceiling) := by
  have hm := computeLadder_chain initial ceiling
  have hsnd := phase1Go_snd 4 initial (by omega)
  rw [computeLadder_eq]
  refine ⟨?_, ?_, ?_⟩
  · exact hm.imp (fun a b hab => hab.1)
  · show lastD ((phase1Go 4 initial).1 ++ _) initial = ceiling
    rw [lastD_append, phase1Go_lastD]
    by_cases hlt : (phase1Go 4 initial).2 < ceiling
    · refine phase2Go_lastD _ _ _ _ hlt ?_
      have hmod := Nat.div_add_mod (ceiling - (phase1Go 4 initial).2) 2000
      have hmlt : (ceiling - (phase1Go 4 initial).2) % 2000 < 2000 := Nat.mod_lt _ (by omega)
      omega
    · rw [phase2Go_stop _ _ _ hlt]
      rw [hsnd] at hlt ⊢
      show (if initial < 1000 then 1000 else initial) = ceiling
      by_cases hc : initial < 1000 <;> simp only [hc, if_pos, if_neg, if_true, if_false] at hlt ⊢ <;> omega
  · exact hm.imp (fun a b hab => hab.2)

/-- C6: the spec's exact-sequence fixture,
`computeLadder 1000 5000 = [1000, 1000, 3000, 3000, 5000]`. -/
theorem c6_ladder_fixture : computeLadder 1000 5000 = [1000, 1000, 3000, 3000, 5000] := by
  decide

/-- C5 witness: the amended theorem applied at `initial = 250`,
`ceiling = 5000`. -/
theorem c5_ladder_amended_witness :
    List.Chain' (fun a b => a ≤ b) (computeLadder 250 5000) ∧
    lastD (computeLadder 250 5000) 0 = 5000 ∧
    List.Chain' (fun a b => a < 1000 → b = min (a + 250) 1000) (computeLadder 250 5000) :=
  c5_ladder_amended 250 5000 (by decide) (by decide)

/-! ## Claim C2: the watcher sends "all done" exactly once -/

/-- Folding the shared callback over the event list only depends on the
number of events. -/
theorem runWatcher_eq (n : Nat) (events : List Nat) :
    runWatcher n events = onChildDoneIter events.length { countdown := n, doneSignals := 0 } := by
  suffices h : ∀ (l : List Nat) (s : WatcherState),
      l.foldl (fun s _ => onChildDone s) s = onChildDoneIter l.length s by
    exact h events _
  intro l
  induction l with
  | nil => intro s; rfl
  | cons a t ih => intro s; exact ih (onChildDone s)

/-- The iterated callback commutes with one more application. -/
theorem onChildDoneIter_succ (k : Nat) : ∀ s,
    onChildDoneIter (k + 1) s = onChildDone (onChildDoneIter k s) := by
  induction k with
  | zero => intro s; rfl
  | succ n ih => intro s; exact ih (onChildDone s)

/-- After `k ≤ n` completions out of `n`, the countdown is `n - k` and the
"all done" signal has been sent exactly once if `k = n` and never before. -/
theorem onChildDoneIter_state (n : Nat) (hn : 0 < n) : ∀ k, k ≤ n →
    onChildDoneIter k { countdown := n, doneSignals := 0 } =
      { countdown := n - k, doneSignals := if k = n then 1 else 0 } := by
  intro k
  induction k with
  | zero =>
    intro _
    have h0 : ¬ (0 = n) := by omega
    simp [onChildDoneIter, h0]
  | succ k ih =>
    intro hk1
    rw [onChildDoneIter_succ, ih (by omega)]
    simp only [onChildDone, WatcherState.mk.injEq]
    constructor
    · omega
    · split_ifs <;> omega

/-- C2: over a session of `n ≥ 1` resources whose pollers each complete
exactly once (the events are distinct indices below `n`, `n` of them, in any
order), the watcher sends the "all done" signal exactly once, and after any
proper prefix of the completions it has not been sent at all. -/
theorem c2_all_done_once (n : Nat) (events : List Nat) (hn : 0 < n)
    (_hnd : events.Nodup) (_hmem : ∀ e ∈ events, e < n) (hlen : events.length = n) :
    (runWatcher n events).doneSignals = 1 ∧
      ∀ k, k < n → (runWatcher n (events.take k)).doneSignals = 0 := by
  constructor
  · rw [runWatcher_eq, hlen, onChildDoneIter_state n hn n (le_refl n)]
    simp
  · intro k hk
    rw [runWatcher_eq, List.length_take, hlen]
    have hmin : min k n = k := by omega
    rw [hmin, onChildDoneIter_state n hn k (by omega)]
    have hne : ¬ (k = n) := by omega
    simp [hne]

/-- C2 witness: three resources completing in the order 2, 0, 1 signal done
exactly once, and not before the third completion. -/
theorem c2_all_done_once_witness :
    (runWatcher 3 [2, 0, 1]).doneSignals = 1 ∧
      (runWatcher 3 ([2, 0, 1].take 2)).doneSignals = 0 := by
  have h := c2_all_done_once 3 [2, 0, 1] (by decide) (by decide) (by decide) (by decide)
  exact ⟨h.1, h.2 2 (by decide)⟩

/-! ## Claim C7: the three-tier readiness policy -/

/-- C7: `isReady` follows the three-tier order — a present STATUS attribute
alone decides through the textual-state classifier; else a present READY
attribute decides by the equality of its `nReady/nTotal` components; else the
row is ready by default — and the four fixtures of the claim hold. -/
theorem c7_isReady_tiers :
    (∀ (s : String) (r : Option String) (fs : FinalState),
      isReady { stateText := some s, readyText := r } fs = stateIsDone s fs) ∧
    (∀ (r : String) (fs : FinalState),
      isReady { stateText := none, readyText := some r } fs = readyRatioIsDone r) ∧
    (∀ fs : FinalState, isReady { stateText := none, readyText := none } fs = true) ∧
    isReady { stateText := some ("Running"), readyText := none } .NotPendingLike = true ∧
    isReady { stateText := none, readyText := some ("2/2") } .NotPendingLike = true ∧
    isReady { stateText := none, readyText := some ("1/2") } .NotPendingLike = false ∧
    isReady { stateText := none, readyText := none } .NotPendingLike = true :=
  ⟨fun _ _ _ => rfl, fun _ _ => rfl, fun _ => rfl, by decide, by decide, by decide, by decide⟩

/-! ## Claim C1: 404 during polling, by final state -/

/-- C1: the claim's behaviour holds of the modelled poller — on a 404 an
`OfflineLike` tick completes as offline, emitting exactly the
`offline(name)` push (short-circuit to completion), and a `NotPendingLike`
tick reschedules silently with no push and no error — and `withOkOn404`
turns a 404 into a successful empty resolution, so an `OfflineLike` by-name
session resolves the gone resource as `missing` (fourth conjunct).  But the
in-src getter dispatch of `status.ts` line 246,
`!finalState || finalState === FinalState.OfflineLike`, is also true for
`NotPendingLike` because the enum value 0 is falsy, so a `NotPendingLike`
by-name session takes `withOkOn404` as well: the fifth conjunct evaluates
the code at the failing input — a persistent 404 resolves the reference as
an expected empty success instead of being retried, contradicting the
comment directly above the dispatch ("don't retry the getter on 404 if
we're expecting the element (eventually) not to exist", lines 240-241) and
the claim's awaiting-ready half. -/
theorem c1_not_found_dispatch_bug (readyRow : StatusRow → Bool) (nm msg : String) :
    pollTick .OfflineLike readyRow nm (.failure 404) = (.completedAsOffline, [.offline nm]) ∧
    pollTick .NotPendingLike readyRow nm (.failure 404) = (.rescheduledSilently, []) ∧
    withOkOn404 (.error (.coded 404 msg)) = .ok none ∧
    getDirectReferences invOfflineByName envNotFound = .returned (some ("pod")) .missing ∧
    getDirectReferences invAwaitReadyByName envNotFound = .returned (some ("pod")) .missing :=
  ⟨rfl, rfl, rfl, rfl, rfl⟩

/-! ## Claim C10: `errorEntity` with an undefined base -/

/-- C10: for every call of `errorEntity` whose base resource is `undefined`,
the reconstruction of the missing base reads `base.originatingCommand` from
`undefined` and throws a `TypeError` instead of returning an error entity —
for every error code, raw flag and backup namespace. -/
theorem c10_errorEntity_undefined_base (raw : Bool) (backupNs : Option String) (err : JsError) :
    errorEntity raw none backupNs err = .error .typeErr := rfl

/-! ## Claim C9: the absent `--final-state` option defaults to NotPendingLike -/

/-- C9: an invocation without the `--final-state` option behaves exactly as
the same invocation with `NotPendingLike` supplied, both in the reference
resolution and in the whole command. -/
theorem c9_final_state_default (inv : Invocation) (env : Env) :
    getDirectReferences { inv with finalStateOption := none } env =
      getDirectReferences { inv with finalStateOption := some .NotPendingLike } env ∧
    status { inv with finalStateOption := none } env =
      status { inv with finalStateOption := some .NotPendingLike } env :=
  ⟨rfl, rfl⟩

/-! ## Claim C8: the namespace of a built reference -/

/-- C8, counterexample: for a declared resource with no namespace of its own
and no command-line namespace, the claim says the reference's namespace
defaults to `default`, but the code attaches no namespace at all — the
generated `kubectl get` carries no `-n` flag (`ns()` returns the empty
string), rather than `-n default`. -/
theorem c8_namespace_default_cex :
    nsFlag none none = "" ∧
    refNamespace none none = none ∧
    refNamespacePerSpecClaim none none = "default" ∧
    buildGetCmd podNoNs none = .ok ("kubectl get \"Pod\" \"nginx\"  -o json") ∧
    nsFlag none none ≠ "-n " ++ refNamespacePerSpecClaim none none := by
  refine ⟨rfl, rfl, rfl, rfl, by decide⟩

/-- C8 (amended): the built reference's namespace is the resource's declared
namespace when present (quoted into the command), else the command-line
namespace when one was given, and otherwise the reference carries no
namespace flag at all — the literal `default` is never substituted into the
reference. -/
theorem c8_namespace_default_amended (m c : Option String) :
    refNamespace m c = (if m.isSome then m else c) ∧
    (∀ x, m = some x → nsFlag m c = "-n \"" ++ x ++ "\"") ∧
    (m = none → ∀ x, c = some x → nsFlag m c = "-n " ++ x) ∧
    (m = none → c = none → nsFlag m c = "") := by
  rcases m with _ | x <;> rcases c with _ | y <;>
    refine ⟨rfl, ?_, ?_, ?_⟩ <;> intros <;> simp_all [nsFlag]

/-- C8 witness: the amended characterization applied at each of the three
shapes of input. -/
theorem c8_namespace_default_witness :
    nsFlag (some ("web")) none = "-n \"web\"" ∧
    nsFlag none (some ("prod")) = "-n prod" ∧
    nsFlag none none = "" :=
  ⟨(c8_namespace_default_amended (some ("web")) none).2.1 "web" rfl,
   (c8_namespace_default_amended none (some ("prod"))).2.2.1 rfl "prod" rfl,
   (c8_namespace_default_amended none none).2.2.2 rfl rfl⟩

/-! ## Claim C4: the NAMESPACE column of the initial table -/

/-- C4, counterexample: a watched pod whose only reference lives in the
default namespace.  The claim says the table then has no NAMESPACE column,
but `headerRow` decides by the kind string alone — for kind `pod` the column
is present. -/
theorem c4_namespace_column_cex :
    getDirectReferences invPodByName envPodFound = .returned (some ("pod")) (.entity podDefaultNs) ∧
    outcomeHasNamespaceColumn (status invPodByName envPodFound) = true ∧
    namespaceColumnPerSpecClaim [podDefaultNs] = false :=
  ⟨rfl, rfl, rfl⟩

/-- C4 (amended): the initial status table includes a NAMESPACE column if and
only if the batch's kind string does not match `/(ns|Namespace)/i`; the
decision depends only on the kind, so it is all-or-nothing across the batch
and never per-row. -/
theorem c4_namespace_column_amended (kind : Option String) :
    rowHasNamespaceColumn (headerRow kind) = !kindMatchesNs kind := by
  cases hkm : kindMatchesNs kind <;>
    simp [headerRow, rowHasNamespaceColumn, hkm]

/-! ## Claim C3: recovery from reference-resolution failure -/

/-- C3, counterexample: `k status bogus --response ...` where `bogus` is
neither a file nor a known resource type.  The resolution fails with 404 and
`status.ts` line 311 rethrows it; the command ends with a thrown hard error,
not with the pass-through response. -/
theorem c3_resolution_failure_cex :
    status invBogusKind envBogusKind =
      .thrown (.coded 404 ("the server does not have a resource type bogus")) ∧
    status invBogusKind envBogusKind ≠ .passThrough invBogusKind.response :=
  ⟨rfl, fun h => nomatch h⟩

/-- C3 (amended): the pass-through recovery exists, but only on the specific
path the code implements: when resolution completes with no resource while
`--final-state` is `OfflineLike`, outside the watching loop and not in raw
mode, the command returns the previously supplied response string (or `true`)
rather than an error. -/
theorem c3_resolution_fallback_amended (inv : Invocation) (env : Env) (k : Option String)
    (hres : getDirectReferences inv env = .returned k .missing)
    (hoff : isOfflineOption inv.finalStateOption = true)
    (hw : inv.watching = false) (hraw : inv.rawOption = false) :
    status inv env = .passThrough inv.response := by
  unfold status
  rw [hres, hoff, hw, hraw]
  rfl

/-- C3 witness: the amended theorem applied to a deleted pod watched with
`--final-state OfflineLike` and a supplied `--response`. -/
theorem c3_resolution_fallback_witness :
    status invOfflineFallback envNotFound = .passThrough (some ("deleted ok")) :=
  c3_resolution_fallback_amended invOfflineFallback envNotFound (some ("pod")) rfl rfl rfl rfl

end AnimalApp
